import Mathlib

/-
Verification development for the GoCart isometric map renderer
(render.go and its earlier revision src/unnamed/part_000).

The Go source is embedded shallowly:

* machine integers become `Int`/`Nat` (the values involved in the verified
  claims stay far from the 32/64-bit boundaries, and the embedding applies
  `% 256` explicitly where the source truncates to a byte);
* slices become `List`, and a blind slice index becomes `List.get?`
  (`none` models the run-time panic of an out-of-range access);
* the calls into `errhandler.Handle` (external package, fatal on a non-nil
  error per section 7 of the design document: such errors "terminate the
  process immediately") are modelled by the `ReadOutcome.fatal` outcome;
* the external zlib inflater and the external NBT tag-tree parser are
  abstract function parameters (`inflate`, `nbtR`): only the control flow
  around them - the zlib header validation performed eagerly by
  `zlib.NewReader`, the discarded error of `bytes.Buffer.ReadFrom`, and the
  `recover()` that swallows a panic of `nbt.Read` - is part of the source
  being verified, and it is embedded concretely;
* `sort.Sort` of Go's standard library (the routine `main` calls on both
  region and chunk lists; the repository itself contains no sorting code)
  is embedded as the classic Go quicksort of the go1 release line:
  insertion sort below 8 elements, median-of-three quicksort with a
  depth-bounded fall back to heapsort.  That routine is documented as not
  guaranteed to be stable, and the embedding exhibits this.
-/

/-! ## Spatial ordering (render.go `PositionList`, part_000 `RegionList`/`ChunkList`) -/

/-- Spatial comparator, translated from `PositionList.Less` of render.go:
`xi, zi := pl[i].GetPos(); xj, zj := pl[j].GetPos();
if zi == zj { return xj < xi }; return zi < zj`.  A position is an `(x, z)`
pair as returned by `GetPos`. -/
def posLess (a b : Int × Int) : Bool :=
  if a.2 = b.2 then decide (b.1 < a.1) else decide (a.2 < b.2)

/-- One 16-block vertical slice of a chunk, translated from `type Section`
of render.go (`Y byte; Data []byte; Blocks []byte`). -/
structure Section where
  Y : Nat
  Data : List Nat
  Blocks : List Nat
deriving DecidableEq

/-- Chunk value, translated from `type Level` of render.go
(`X, Z int32; LastUpdate int64; TerrainPopulated byte; HeightMap []int32;
Sections []Section`).  A freshly declared `var chunk Level` is the zero
value: every numeric field `0`, every slice empty. -/
structure Level where
  X : Int
  Z : Int
  LastUpdate : Int
  TerrainPopulated : Nat
  HeightMap : List Int
  Sections : List Section
deriving DecidableEq

/-- Zero value of `Level`, as produced by `var chunk Level` in main. -/
def Level.zero : Level := ⟨0, 0, 0, 0, [], []⟩

/-- Comparator of part_000 `ChunkList.Less`:
`if rl[i].Z == rl[j].Z { return rl[j].X < rl[i].X }; return rl[i].Z < rl[j].Z`. -/
def chunkLess (a b : Level) : Bool :=
  if a.Z = b.Z then decide (b.X < a.X) else decide (a.Z < b.Z)

/-- Region descriptor, translated from `type Region` of render.go
(`X, Z int; Path string`). -/
structure Region where
  X : Int
  Z : Int
  Path : String
deriving DecidableEq

/-- Comparator of part_000 `RegionList.Less` (same text as `ChunkList.Less`). -/
def regionLess (a b : Region) : Bool :=
  if a.Z = b.Z then decide (b.X < a.X) else decide (a.Z < b.Z)

/-! ## Go standard library `sort.Sort`

Embedding of the quicksort behind `sort.Sort` in the go1 release line
(`src/pkg/sort/sort.go`), which render.go invokes on `PositionList` values.
All loops carry an explicit fuel that dominates their iteration count, and
index lookups go through `List.get?`; the `none` branches are unreachable
for the in-range indices the algorithm produces and merely make the
functions total. -/

namespace GoSort

variable {α : Type} (less : α → α → Bool)

/-- One `data.Swap(i, j)` on the list model. -/
def aswap (l : List α) (i j : Nat) : List α :=
  match l.get? i, l.get? j with
  | some x, some y => (l.set i y).set j x
  | _, _ => l

/-- One `data.Less(i, j)` on the list model. -/
def lessAt (l : List α) (i j : Nat) : Bool :=
  match l.get? i, l.get? j with
  | some x, some y => less x y
  | _, _ => false

/-- Inner loop of `insertionSort`:
`for j := i; j > a && data.Less(j, j-1); j-- { data.Swap(j, j-1) }`,
with fuel `j - a` standing for the guard `j > a`. -/
def insInner : List α → Nat → Nat → List α
  | l, _, 0 => l
  | l, j, fuel+1 =>
    if lessAt less l j (j-1) then insInner (aswap l j (j-1)) (j-1) fuel else l

/-- Outer loop of `insertionSort`: `for i := a+1; i < b; i++`. -/
def insertionSortLoop (a : Nat) : List α → Nat → Nat → List α
  | l, _, 0 => l
  | l, i, fuel+1 => insertionSortLoop a (insInner less l i (i - a)) (i+1) fuel

/-- Go `insertionSort(data, a, b)`. -/
def insertionSortGo (l : List α) (a b : Nat) : List α :=
  insertionSortLoop less a l (a+1) (b - (a+1))

/-- Loop of Go `siftDown(data, lo, hi, first)`; the fuel `hi + 1` dominates
the number of iterations because `child` at least doubles each time. -/
def siftDownLoop (hi first : Nat) : List α → Nat → Nat → List α
  | l, _, 0 => l
  | l, root, fuel+1 =>
    let child := 2*root + 1
    if child ≥ hi then l
    else
      let child := if child + 1 < hi && lessAt less l (first+child) (first+child+1) then child + 1 else child
      if !lessAt less l (first+root) (first+child) then l
      else siftDownLoop hi first (aswap l (first+root) (first+child)) child fuel

/-- Go `siftDown(data, lo, hi, first)`. -/
def siftDown (l : List α) (lo hi first : Nat) : List α :=
  siftDownLoop less hi first l lo (hi+1)

/-- Heap build loop of Go `heapSort`: `for i := (hi-1)/2; i >= 0; i--`;
fuel `k+1` means the current index is `k`. -/
def heapBuildLoop (hi first : Nat) : List α → Nat → List α
  | l, 0 => l
  | l, k+1 => heapBuildLoop hi first (siftDown less l k hi first) k

/-- Pop loop of Go `heapSort`:
`for i := hi-1; i >= 0; i-- { data.Swap(first, first+i); siftDown(data, lo, i, first) }`. -/
def heapPopLoop (first : Nat) : List α → Nat → List α
  | l, 0 => l
  | l, k+1 => heapPopLoop first (siftDown less (aswap l first (first + k)) 0 k first) k

/-- Go `heapSort(data, a, b)`. -/
def heapSortGo (l : List α) (a b : Nat) : List α :=
  let first := a
  let hi := b - a
  heapPopLoop less first (heapBuildLoop less hi first l ((hi - 1) / 2 + 1)) hi

/-- Go `medianOfThree(data, a, b, c)`: moves the median of `data[a]`,
`data[b]`, `data[c]` into `data[a]` by a three-step bubble pass. -/
def medianOfThree (l : List α) (a b c : Nat) : List α :=
  let m0 := b
  let m1 := a
  let m2 := c
  let l := if lessAt less l m1 m0 then aswap l m1 m0 else l
  let l := if lessAt less l m2 m1 then aswap l m2 m1 else l
  if lessAt less l m1 m0 then aswap l m1 m0 else l

/-- Loop of Go `swapRange(data, a, b, n)`. -/
def swapRangeLoop (a b : Nat) : List α → Nat → Nat → List α
  | l, _, 0 => l
  | l, i, k+1 => swapRangeLoop a b (aswap l (a+i) (b+i)) (i+1) k

/-- Go `swapRange(data, a, b, n)`. -/
def swapRange (l : List α) (a b n : Nat) : List α :=
  swapRangeLoop a b l 0 n

/-- Partition loop of Go `doPivot`; every iteration increments `b` or
decrements `c`, so the fuel `hi + 1` dominates the iteration count. -/
def doPivotLoop (pivot : Nat) : List α → Nat → Nat → Nat → Nat → Nat → List α × Nat × Nat × Nat × Nat
  | l, a, b, c, d, 0 => (l, a, b, c, d)
  | l, a, b, c, d, fuel+1 =>
    if b < c then
      if lessAt less l b pivot then doPivotLoop pivot l a (b+1) c d fuel
      else if !lessAt less l pivot b then doPivotLoop pivot (aswap l a b) (a+1) (b+1) c d fuel
      else if lessAt less l pivot (c-1) then doPivotLoop pivot l a b (c-1) d fuel
      else if !lessAt less l (c-1) pivot then doPivotLoop pivot (aswap l (c-1) (d-1)) a b (c-1) (d-1) fuel
      else doPivotLoop pivot (aswap l b (c-1)) a (b+1) (c-1) d fuel
    else (l, a, b, c, d)

/-- Go `doPivot(data, lo, hi)`: ninther pivot selection above 40 elements,
median-of-three otherwise, three-way partition, then block swaps.  The
partition state `(data, a, b, c, d)` returned by the loop is consumed via
projections. -/
def doPivot (l : List α) (lo hi : Nat) : List α × Nat × Nat :=
  let m := lo + (hi - lo) / 2
  let l :=
    if hi - lo > 40 then
      let s := (hi - lo) / 8
      let l := medianOfThree less l lo (lo+s) (lo+2*s)
      let l := medianOfThree less l m (m - s) (m + s)
      medianOfThree less l (hi-1) (hi-1-s) (hi-1-2*s)
    else l
  let l := medianOfThree less l lo m (hi - 1)
  let pivot := lo
  let r := doPivotLoop less pivot l (lo+1) (lo+1) hi hi (hi + 1)
  let l := r.1
  let a := r.2.1
  let b := r.2.2.1
  let c := r.2.2.2.1
  let d := r.2.2.2.2
  let n1 := Nat.min (b - a) (a - lo)
  let l := swapRange l lo (b - n1) n1
  let n2 := Nat.min (hi - d) (d - c)
  let l := swapRange l c (hi - n2) n2
  (l, lo + (b - a), hi - (d - c))

/-- Go `quickSort(data, a, b, maxDepth)`: the `for b-a > 7` loop is written
as its equivalent recursion (the loop continuation is the second recursive
call); pivoting always leaves at least the pivot between the two
sub-segments, so the fuel `length + 1` dominates the nesting depth. -/
def quickSortF : List α → Nat → Nat → Nat → Nat → List α
  | l, _, _, _, 0 => l
  | l, a, b, maxDepth, fuel+1 =>
    if b - a > 7 then
      if maxDepth = 0 then heapSortGo less l a b
      else
        let r := doPivot less l a b
        let mlo := r.2.1
        let mhi := r.2.2
        if mlo - a < b - mhi then
          quickSortF (quickSortF r.1 a mlo (maxDepth - 1) fuel) mhi b (maxDepth - 1) fuel
        else
          quickSortF (quickSortF r.1 mhi b (maxDepth - 1) fuel) a mlo (maxDepth - 1) fuel
    else if b - a > 1 then insertionSortGo less l a b
    else l

/-- Bit length of `i`, from the depth bound computation in Go `Sort`:
`for i := n; i > 0; i >>= 1 { depth++ }`; the fuel (instantiated with `n`
itself, which dominates the iteration count) keeps the recursion
structural. -/
def bitlenF : Nat → Nat → Nat
  | _, 0 => 0
  | i, fuel+1 => if i = 0 then 0 else bitlenF (i / 2) fuel + 1

/-- Depth bound `2 * ceil(lg(n+1))` of Go `Sort`. -/
def maxDepthGo (n : Nat) : Nat := 2 * bitlenF n n

/-- Go `sort.Sort(data)` on the list model. -/
def goSort (l : List α) : List α :=
  quickSortF less l 0 l.length (maxDepthGo l.length) (l.length + 1)

end GoSort

/-! ## Region container reading (render.go `Location`, `Level.Read`, main loop) -/

/-- One location-table entry, translated from `type Location` of render.go:
`Offset uint32; Length byte`, both in 4096-byte sectors. -/
structure Location where
  Offset : Nat
  Length : Nat
deriving DecidableEq

/-- Translation of `Location.Read`: a 4-byte big-endian word is read into
`Offset`, then `rl.Length = uint8(rl.Offset & 0x000000FF); rl.Offset >>= 8`. -/
def locationRead (b0 b1 b2 b3 : Nat) : Location :=
  let w := (b0 % 256) * 16777216 + (b1 % 256) * 65536 + (b2 % 256) * 256 + (b3 % 256)
  ⟨w / 256, w % 256⟩

/-- Record extraction, translated from
`io.NewSectionReader(regionFile, int64(location.Offset) << 12, int64(location.Length) << 12)`
in main: the byte range of `Length` sectors starting at sector `Offset`. -/
def extractRecord (container : List Nat) (loc : Location) : List Nat :=
  (container.drop (loc.Offset * 4096)).take (loc.Length * 4096)

/-- Validation performed eagerly by `zlib.NewReader` on its two header
bytes (Go `compress/zlib`): the compression method must be 8 (deflate),
the `(CMF<<8 | FLG) % 31 == 0` checksum must hold, and the FDICT bit must
be clear because `Level.Read` supplies no preset dictionary. -/
def zlibHeaderOK (b0 b1 : Nat) : Bool :=
  (b0 % 16 == 8) && (((b0 % 256) * 256 + b1 % 256) % 31 == 0) && ((b1 % 256) / 32 % 2 == 0)

/-- Outcome of the external `nbt.Read` call: it either fills the `Level`
and returns, or panics part-way through, leaving the fields decoded so far
(all remaining fields keep their zero value). -/
inductive NbtOutcome where
  | ok (l : Level)
  | panicked (l : Level)
deriving DecidableEq

/-- Effect of the `defer func() { recover() }()` in `Level.Read`: a panic
of `nbt.Read` is swallowed and the partially filled `Level` survives. -/
def recoverNbt : NbtOutcome → Level
  | NbtOutcome.ok l => l
  | NbtOutcome.panicked l => l

/-- Outcome of one `Level.Read` call.  `fatal` models
`errhandler.Handle("Error zlib decompressing chunk data: ", err)` firing on
a non-nil `zlib.NewReader` error, which per section 7 of the design
document terminates the whole process. -/
inductive ReadOutcome where
  | fatal
  | ok (l : Level)
deriving DecidableEq

/-- Translation of `Level.Read`.  The two `binary.Read` calls consume the
4-byte record length and the 1-byte compression tag; their results (and
errors) are discarded - in particular the tag byte is never inspected.
`zlib.NewReader` then consumes and validates two header bytes, and a
failure (bad header or short data) reaches `errhandler.Handle`, i.e.
`fatal`.  The remaining bytes go through the abstract inflater, whose
result feeds the abstract NBT parser; a parser panic is recovered. -/
def levelRead (inflate : List Nat → List Nat) (nbtR : List Nat → NbtOutcome)
    (data : List Nat) : ReadOutcome :=
  match data.drop 5 with
  | b0 :: b1 :: body =>
    if zlibHeaderOK b0 b1 then ReadOutcome.ok (recoverNbt (nbtR (inflate body)))
    else ReadOutcome.fatal
  | _ => ReadOutcome.fatal

/-- A record whose `Level.Read` gets past the zlib header: at least two
bytes remain after the 5-byte prefix and they form a valid zlib header. -/
def recordDecodable (bs : List Nat) : Bool :=
  match bs.drop 5 with
  | b0 :: b1 :: _ => zlibHeaderOK b0 b1
  | _ => false

/-- Translation of the location loop in main's producer goroutine:
`for _, location := range header.Locations { if location.Length != 0 {
chunkSection := io.NewSectionReader(...); var chunk Level;
chunk.Read(chunkSection); if chunk.TerrainPopulated == 1 { chunks =
append(chunks, chunk) } } }`.  The first component is `none` when a fatal
decode error killed the run mid-scan, otherwise `some` of the collected
chunk list; the second component records, in order, the entries for which
a byte range was extracted and a decode attempted. -/
def scanLocations (decode : Location → ReadOutcome) : List Location → Option (List Level) × List Location
  | [] => (some [], [])
  | loc :: rest =>
    if loc.Length = 0 then scanLocations decode rest
    else
      match decode loc with
      | ReadOutcome.fatal => (none, [loc])
      | ReadOutcome.ok chunk =>
        ((scanLocations decode rest).1.map
           (fun chunks => if chunk.TerrainPopulated = 1 then chunk :: chunks else chunks),
         loc :: (scanLocations decode rest).2)

/-! ## Isometric projection and block drawing (render.go `ProjectIsometric`, `DrawBlock`) -/

/-- Translation of `ProjectIsometric`:
`xI = x << 1 + z << 1; yI = -x - y << 1 + z` (Go shifts bind tighter than
addition, so this is `xI = 2x + 2z`, `yI = (-x) - 2y + z`). -/
def ProjectIsometric (x y z : Int) : Int × Int :=
  (x * 2 + z * 2, -x - y * 2 + z)

/-- An RGBA color, as `image/color.RGBA`. -/
structure RGBA where
  r : Nat
  g : Nat
  b : Nat
  a : Nat
deriving DecidableEq

/-- Block color entry, translated from `type BlockColor` of render.go. -/
structure BlockColor where
  Alpha : Nat
  Full : Bool
  Top : RGBA
  Left : RGBA
  Right : RGBA
deriving DecidableEq

/-- An axis-aligned rectangle `[x0, x1) x [y0, y1)`, as `image.Rectangle`. -/
structure Rect where
  x0 : Int
  y0 : Int
  x1 : Int
  y1 : Int
deriving DecidableEq

/-- Membership test of `image.Point.In`. -/
def inRect (r : Rect) (p : Int × Int) : Bool :=
  decide (r.x0 ≤ p.1 ∧ p.1 < r.x1 ∧ r.y0 ≤ p.2 ∧ p.2 < r.y1)

/-- Intersection as in `image.Rectangle.Intersect`; Go canonicalises an
empty result to the zero rectangle, which contains exactly the same set of
points (none) as this max/min form. -/
def intersectR (r s : Rect) : Rect :=
  ⟨max r.x0 s.x0, max r.y0 s.y0, min r.x1 s.x1, min r.y1 s.y1⟩

/-- The 4x3 sprite tile of `DrawBlock`: `image.Rect(x - 2, y, x + 2, y + 3)`. -/
def tileRect (x y : Int) : Rect := ⟨x - 2, y, x + 2, y + 3⟩

/-- Whether the sprite tile anchored at `(x, y)` lies inside `r`. -/
def tileInside (r : Rect) (x y : Int) : Bool :=
  decide (r.x0 ≤ x - 2 ∧ x + 2 ≤ r.x1 ∧ r.y0 ≤ y ∧ y + 3 ≤ r.y1)

/-- The `SetRGBA` calls issued by `DrawBlock`, in program order: the
12-pixel full-cube sprite when `c.Full`, the 8-pixel flat sprite
otherwise.  Translated statement by statement from render.go. -/
def spritePixels (x y : Int) (c : BlockColor) : List ((Int × Int) × RGBA) :=
  if c.Full then
    [((x, y), c.Top), ((x + 1, y), c.Top), ((x - 2, y), c.Top), ((x - 1, y), c.Top),
     ((x - 2, y + 1), c.Left), ((x - 1, y + 1), c.Left), ((x - 1, y + 2), c.Left), ((x - 2, y + 2), c.Left),
     ((x, y + 1), c.Right), ((x, y + 2), c.Right), ((x + 1, y + 1), c.Right), ((x + 1, y + 2), c.Right)]
  else
    [((x, y + 1), c.Top), ((x + 1, y + 1), c.Top), ((x - 2, y + 1), c.Top), ((x - 1, y + 1), c.Top),
     ((x - 2, y + 2), c.Left), ((x - 1, y + 2), c.Left),
     ((x, y + 2), c.Right), ((x + 1, y + 2), c.Right)]

/-- Pixel writes of `DrawBlock` on the `c.Alpha == 0xFF` fast path: the
sprite is drawn through `img.SubImage(image.Rect(x-2, y, x+2, y+3))`, whose
rectangle is the intersection of the tile with the image bounds, and each
`SetRGBA` call silently drops a point outside that rectangle. -/
def drawBlockOpaqueWrites (imgRect : Rect) (x y : Int) (c : BlockColor) : List ((Int × Int) × RGBA) :=
  (spritePixels x y c).filter (fun pc => inRect (intersectR imgRect (tileRect x y)) pc.1)

/-! ## Section indexing and the draw traversal (render.go `Section.Block`, `Level.Draw`) -/

/-- Flat block index of `Section.Block`: `(y * 16 + z) * 16 + x`. -/
def blockIndex (x y z : Nat) : Nat := (y * 16 + z) * 16 + x

/-- Translation of `Section.Block`: `return s.Blocks[(y*16+z)*16+x]` with
no bounds check of its own; `none` models the panic of an out-of-range
index. -/
def Section.Block (s : Section) (x y z : Nat) : Option Nat :=
  s.Blocks.get? (blockIndex x y z)

/-- The `(x, y, z)` coordinate triples supplied to `Section.Block` by the
loops of `Level.Draw`, in traversal order:
`for y := 0; y < 16; y++ { for x := 15; x >= 0; x-- { for z := 0; z < 16; z++`. -/
def drawCoords : List (Nat × Nat × Nat) :=
  (List.range 16).flatMap fun y =>
    ((List.range 16).reverse.flatMap fun x =>
      (List.range 16).map fun z => (x, y, z))

/-! ## Concrete sample data used by closed theorems -/

/-- A populated chunk value. -/
def lvlPop : Level := ⟨3, 7, 0, 1, [], []⟩

/-- An unpopulated chunk value (as left by a parse that never reached the
terrain-populated field: the byte keeps its zero value). -/
def lvlEmpty : Level := ⟨0, 0, 0, 0, [], []⟩

/-- Sample inflater for closed theorems: returns the bytes unchanged. -/
def inflate0 : List Nat → List Nat := fun bs => bs

/-- Sample NBT parser that succeeds with a populated chunk. -/
def nbtOk0 : List Nat → NbtOutcome := fun _ => NbtOutcome.ok lvlPop

/-- Sample NBT parser that panics on a malformed tag tree, having decoded
nothing. -/
def nbtPanic0 : List Nat → NbtOutcome := fun _ => NbtOutcome.panicked lvlEmpty

/-- A chunk record whose compressed payload does not decompress: the tag
byte is the supported scheme 2, but the two bytes handed to
`zlib.NewReader` are `0x00 0x00` - compression method 0, an invalid zlib
header. -/
def badZlibRecord : List Nat := [0, 0, 0, 3, 2, 0, 0]

/-- A chunk record with an unsupported compression tag 1 (gzip) whose
remaining bytes nevertheless start with the valid zlib header `0x78 0x9C`. -/
def gzipTagRecord : List Nat := [0, 0, 0, 4, 1, 120, 156]

/-- A well-formed record: tag 2 and the valid zlib header `0x78 0x9C`. -/
def goodZlibRecord : List Nat := [0, 0, 0, 4, 2, 120, 156]

/-- A location-table entry of one sector at sector offset 0. -/
def loc1 : Location := ⟨0, 1⟩

/-- An empty location-table entry (`Length == 0`). -/
def loc0 : Location := ⟨0, 0⟩

/-- A nonempty location-table entry distinct from `loc1`. -/
def loc12 : Location := ⟨1, 2⟩

/-- Sample decoder for closed theorems: every record decodes to `lvlPop`. -/
def dec0 : Location → ReadOutcome := fun _ => ReadOutcome.ok lvlPop

/-- Sample decoder whose chunks alternate: `loc1` yields a populated
chunk, anything else an unpopulated one. -/
def dec1 : Location → ReadOutcome := fun loc =>
  if loc = loc1 then ReadOutcome.ok lvlPop else ReadOutcome.ok lvlEmpty

/-- A sample location table for closed theorems. -/
def locs0 : List Location := [loc0, loc12]

/-- A sample location table containing both kinds of nonempty entries. -/
def locs1 : List Location := [loc1, loc0, loc12]

/-- An entity with a position and a distinguishing identity tag, standing
for a `Positioner` (region or chunk): `PositionList.Less` consults only the
position. -/
abbrev Ent := (Int × Int) × Nat

/-- The `PositionList.Less` comparator lifted to tagged entities through
`GetPos`. -/
def entLess (a b : Ent) : Bool := posLess a.1 b.1

/-- Index of the entity carrying tag `t`. -/
def tagIdx (l : List Ent) (t : Nat) : Nat := l.findIdx (fun e => e.2 == t)

/-- The handcrafted position set of the specification, in its given order. -/
def samplePositions : List (Int × Int) := [(0, 0), (1, 0), (0, 1), (-1, 1)]

/-- A nine-entity input containing two entities at the equal position
`(0, 0)`, tagged 1 and 2 in encounter order. -/
def sampleEnts : List Ent :=
  [((5, 1), 0), ((4, 1), 0), ((0, 0), 1), ((3, 1), 0), ((2, 1), 0),
   ((1, 1), 0), ((0, 0), 2), ((0, 1), 0), ((-1, 1), 0)]

/-- A sample image rectangle comfortably containing the sample tile. -/
def rect8 : Rect := ⟨0, 0, 100, 100⟩

/-- A fully opaque full-cube block color. -/
def col8 : BlockColor := ⟨255, true, ⟨250, 0, 0, 255⟩, ⟨0, 250, 0, 255⟩, ⟨0, 0, 250, 255⟩⟩

/-- A section whose block array has the full 4096 entries. -/
def sFull : Section := ⟨0, [], List.replicate 4096 0⟩

/-- A section whose block array is empty. -/
def sShort : Section := ⟨0, [], []⟩

/-- Adjacent-pair order check: no neighbouring pair of the list is
strictly out of order under the given comparator. -/
def nonDecreasingBy (less : α → α → Bool) : List α → Bool
  | [] => true
  | [_] => true
  | a :: b :: t => !(less b a) && nonDecreasingBy less (b :: t)

/-! ## Helper lemmas -/

namespace GoSort

variable {α : Type} {less : α → α → Bool}

theorem mem_aswap {l : List α} {i j : Nat} {x : α} (h : x ∈ aswap l i j) : x ∈ l := by
  unfold aswap at h
  cases hi : l.get? i <;> cases hj : l.get? j <;> simp only [hi, hj] at h
  · exact h
  · exact h
  · exact h
  · rcases List.mem_or_eq_of_mem_set h with h' | rfl
    · rcases List.mem_or_eq_of_mem_set h' with h'' | rfl
      · exact h''
      · exact List.get?_mem hj
    · exact List.get?_mem hi

theorem mem_iteAswap {p : Prop} [Decidable p] {l : List α} {i j : Nat} {x : α}
    (h : x ∈ (if p then aswap l i j else l)) : x ∈ l := by
  split at h
  · exact mem_aswap h
  · exact h

theorem mem_insInner : ∀ (fuel : Nat) {l : List α} {j : Nat} {x : α},
    x ∈ insInner less l j fuel → x ∈ l
  | 0, _, _, _, h => h
  | fuel+1, l, j, x, h => by
    unfold insInner at h
    split at h
    · exact mem_aswap (mem_insInner fuel h)
    · exact h

theorem mem_insertionSortLoop : ∀ (fuel : Nat) {a : Nat} {l : List α} {i : Nat} {x : α},
    x ∈ insertionSortLoop less a l i fuel → x ∈ l
  | 0, _, _, _, _, h => h
  | fuel+1, a, l, i, x, h => mem_insInner _ (mem_insertionSortLoop fuel h)

theorem mem_insertionSortGo {l : List α} {a b : Nat} {x : α}
    (h : x ∈ insertionSortGo less l a b) : x ∈ l :=
  mem_insertionSortLoop _ h

theorem mem_siftDownLoop : ∀ (fuel : Nat) {hi first : Nat} {l : List α} {root : Nat} {x : α},
    x ∈ siftDownLoop less hi first l root fuel → x ∈ l
  | 0, _, _, _, _, _, h => h
  | fuel+1, hi, first, l, root, x, h => by
    simp only [siftDownLoop] at h
    split at h
    · exact h
    · split at h
      · split at h
        · exact h
        · exact mem_aswap (mem_siftDownLoop fuel h)
      · split at h
        · exact h
        · exact mem_aswap (mem_siftDownLoop fuel h)

theorem mem_siftDown {l : List α} {lo hi first : Nat} {x : α}
    (h : x ∈ siftDown less l lo hi first) : x ∈ l :=
  mem_siftDownLoop _ h

theorem mem_heapBuildLoop : ∀ (k : Nat) {hi first : Nat} {l : List α} {x : α},
    x ∈ heapBuildLoop less hi first l k → x ∈ l
  | 0, _, _, _, _, h => h
  | k+1, hi, first, l, x, h => mem_siftDown (mem_heapBuildLoop k h)

theorem mem_heapPopLoop : ∀ (k : Nat) {first : Nat} {l : List α} {x : α},
    x ∈ heapPopLoop less first l k → x ∈ l
  | 0, _, _, _, h => h
  | k+1, first, l, x, h => mem_aswap (mem_siftDown (mem_heapPopLoop k h))

theorem mem_heapSortGo {l : List α} {a b : Nat} {x : α}
    (h : x ∈ heapSortGo less l a b) : x ∈ l :=
  mem_heapBuildLoop _ (mem_heapPopLoop _ h)

theorem mem_medianOfThree {l : List α} {a b c : Nat} {x : α}
    (h : x ∈ medianOfThree less l a b c) : x ∈ l :=
  mem_iteAswap (mem_iteAswap (mem_iteAswap h))

theorem mem_swapRangeLoop : ∀ (k : Nat) {a b : Nat} {l : List α} {i : Nat} {x : α},
    x ∈ swapRangeLoop a b l i k → x ∈ l
  | 0, _, _, _, _, _, h => h
  | k+1, a, b, l, i, x, h => mem_aswap (mem_swapRangeLoop k h)

theorem mem_swapRange {l : List α} {a b n : Nat} {x : α}
    (h : x ∈ swapRange l a b n) : x ∈ l :=
  mem_swapRangeLoop _ h

theorem mem_doPivotLoop : ∀ (fuel : Nat) {pivot : Nat} {l : List α} {a b c d : Nat} {x : α},
    x ∈ (doPivotLoop less pivot l a b c d fuel).1 → x ∈ l
  | 0, _, _, _, _, _, _, _, h => h
  | fuel+1, pivot, l, a, b, c, d, x, h => by
    unfold doPivotLoop at h
    split at h
    · split at h
      · exact mem_doPivotLoop fuel h
      · split at h
        · exact mem_aswap (mem_doPivotLoop fuel h)
        · split at h
          · exact mem_doPivotLoop fuel h
          · split at h
            · exact mem_aswap (mem_doPivotLoop fuel h)
            · exact mem_aswap (mem_doPivotLoop fuel h)
    · exact h

theorem mem_doPivot {l : List α} {lo hi : Nat} {x : α}
    (h : x ∈ (doPivot less l lo hi).1) : x ∈ l := by
  have h2 := mem_medianOfThree (mem_doPivotLoop _ (mem_swapRange (mem_swapRange h)))
  split at h2
  · exact mem_medianOfThree (mem_medianOfThree (mem_medianOfThree h2))
  · exact h2

theorem mem_quickSortF : ∀ (fuel : Nat) {l : List α} {a b maxDepth : Nat} {x : α},
    x ∈ quickSortF less l a b maxDepth fuel → x ∈ l
  | 0, _, _, _, _, _, h => h
  | fuel+1, l, a, b, maxDepth, x, h => by
    simp only [quickSortF] at h
    split at h
    · split at h
      · exact mem_heapSortGo h
      · split at h
        · exact mem_doPivot (mem_quickSortF fuel (mem_quickSortF fuel h))
        · exact mem_doPivot (mem_quickSortF fuel (mem_quickSortF fuel h))
    · split at h
      · exact mem_insertionSortGo h
      · exact h

theorem mem_goSort {l : List α} {x : α} (h : x ∈ goSort less l) : x ∈ l :=
  mem_quickSortF _ h

end GoSort

theorem levelRead_ne_fatal {inflate : List Nat → List Nat} {nbtR : List Nat → NbtOutcome}
    {bs : List Nat} (h : recordDecodable bs = true) :
    levelRead inflate nbtR bs ≠ ReadOutcome.fatal := by
  unfold recordDecodable at h
  unfold levelRead
  cases hbs : bs.drop 5 with
  | nil => rw [hbs] at h; simp at h
  | cons b0 t =>
    cases t with
    | nil => rw [hbs] at h; simp at h
    | cons b1 body =>
      rw [hbs] at h
      have h' : zlibHeaderOK b0 b1 = true := h
      simp [h']

theorem scan_completes {decode : Location → ReadOutcome} :
    ∀ {locs : List Location},
      (∀ loc ∈ locs, loc.Length ≠ 0 → decode loc ≠ ReadOutcome.fatal) →
      ((scanLocations decode locs).1).isSome = true := by
  intro locs
  induction locs with
  | nil => intro _; rfl
  | cons loc rest ih =>
    intro hall
    unfold scanLocations
    split
    · exact ih (fun l hl => hall l (List.mem_cons_of_mem _ hl))
    · rename_i hne
      cases hd : decode loc with
      | fatal => exact absurd hd (hall loc (List.mem_cons_self _ _) hne)
      | ok chunk =>
        have hrest := ih (fun l hl => hall l (List.mem_cons_of_mem _ hl))
        cases ho : (scanLocations decode rest).1 with
        | none => rw [ho] at hrest; simp at hrest
        | some chunks => simp [ho]

theorem scan_populated {decode : Location → ReadOutcome} :
    ∀ {locs : List Location} {chunks : List Level},
      (scanLocations decode locs).1 = some chunks →
      ∀ {c : Level}, c ∈ chunks → c.TerrainPopulated = 1 := by
  intro locs
  induction locs with
  | nil =>
    intro chunks h c hc
    simp only [scanLocations, Option.some.injEq] at h
    subst h
    cases hc
  | cons loc rest ih =>
    intro chunks h c hc
    unfold scanLocations at h
    split at h
    · exact ih h hc
    · cases hd : decode loc with
      | fatal => rw [hd] at h; simp at h
      | ok chunk =>
        rw [hd] at h
        cases ho : (scanLocations decode rest).1 with
        | none => rw [ho] at h; simp at h
        | some chunks' =>
          rw [ho] at h
          simp only [Option.map_some', Option.some.injEq] at h
          subst h
          split at hc
          · rename_i hpop
            rcases List.mem_cons.mp hc with rfl | hmem
            · exact hpop
            · exact ih ho hmem
          · exact ih ho hc

theorem scan_trace_nonzero {decode : Location → ReadOutcome} :
    ∀ {locs : List Location} {loc : Location},
      loc ∈ (scanLocations decode locs).2 → loc.Length ≠ 0 := by
  intro locs
  induction locs with
  | nil => intro loc h; cases h
  | cons loc0 rest ih =>
    intro loc h
    unfold scanLocations at h
    split at h
    · exact ih h
    · rename_i hne
      cases hd : decode loc0 with
      | fatal =>
        rw [hd] at h
        rcases List.mem_cons.mp h with rfl | hmem
        · exact hne
        · cases hmem
      | ok chunk =>
        rw [hd] at h
        rcases List.mem_cons.mp h with rfl | hmem
        · exact hne
        · exact ih hmem

theorem scan_trace_filter {decode : Location → ReadOutcome} :
    ∀ {locs : List Location},
      ((scanLocations decode locs).1).isSome = true →
      (scanLocations decode locs).2 = locs.filter (fun l => decide (l.Length ≠ 0)) := by
  intro locs
  induction locs with
  | nil => intro _; rfl
  | cons loc rest ih =>
    intro hs
    by_cases h0 : loc.Length = 0
    · unfold scanLocations at hs ⊢
      rw [if_pos h0] at hs ⊢
      rw [ih hs, List.filter_cons]
      simp [h0]
    · unfold scanLocations at hs ⊢
      rw [if_neg h0] at hs ⊢
      cases hd : decode loc with
      | fatal =>
        rw [hd] at hs
        simp at hs
      | ok chunk =>
        rw [hd] at hs
        simp only [Option.isSome_map'] at hs
        show loc :: (scanLocations decode rest).2 =
            List.filter (fun l => decide (l.Length ≠ 0)) (loc :: rest)
        simp [List.filter_cons, h0, ih hs]

theorem blockIndex_lt {x y z : Nat} (hx : x < 16) (hy : y < 16) (hz : z < 16) :
    blockIndex x y z < 4096 := by
  unfold blockIndex
  omega

theorem drawCoords_bounds {c : Nat × Nat × Nat} (hc : c ∈ drawCoords) :
    c.1 < 16 ∧ c.2.1 < 16 ∧ c.2.2 < 16 := by
  simp only [drawCoords, List.mem_flatMap, List.mem_reverse, List.mem_map, List.mem_range] at hc
  rcases hc with ⟨y, hy, x, hx, z, hz, rfl⟩
  exact ⟨hx, hy, hz⟩

theorem inRect_inter {r s : Rect} {p : Int × Int} :
    inRect (intersectR r s) p = true ↔ inRect r p = true ∧ inRect s p = true := by
  simp only [inRect, intersectR, decide_eq_true_eq]
  omega

theorem inTile_sub {r : Rect} {x y : Int} {p : Int × Int}
    (hins : tileInside r x y = true) (hp : inRect (tileRect x y) p = true) :
    inRect (intersectR r (tileRect x y)) p = true := by
  simp only [tileInside, tileRect, inRect, intersectR, decide_eq_true_eq] at *
  omega

/-! ## Claims -/

/-- C1 counterexample: a chunk record whose compressed payload fails to
decompress (invalid zlib header `0x00 0x00`) is not dropped - the fatal
error handler fires and the scan of the containing container aborts
(`none`), instead of continuing with `some []`. -/
theorem claimC1_cex :
    (scanLocations (fun loc => levelRead inflate0 nbtPanic0 (extractRecord badZlibRecord loc))
      [loc1]).1 = none := by decide

/-- C1 (amended): recovery is local only for tag-tree failures.  If every
nonempty location-table entry extracts a record that passes the zlib
header check, the container scan always completes (no abort), whatever the
inflater returns and however the NBT parser behaves - in particular a
malformed or truncated tag tree (a panicking parse) never aborts the scan;
but a record failing the zlib header check is fatal to the whole run. -/
theorem claimC1 : ∀ (inflate : List Nat → List Nat) (nbtR : List Nat → NbtOutcome)
    (container : List Nat) (locs : List Location),
    (∀ loc ∈ locs, loc.Length ≠ 0 → recordDecodable (extractRecord container loc) = true) →
    ∃ chunks,
      (scanLocations (fun loc => levelRead inflate nbtR (extractRecord container loc)) locs).1
        = some chunks := by
  intro inflate nbtR container locs hall
  apply Option.isSome_iff_exists.mp
  apply scan_completes
  intro loc hl hne
  exact levelRead_ne_fatal (hall loc hl hne)

/-- C1 witness: a record with a valid zlib header and a panicking NBT
parse completes the scan. -/
theorem claimC1_witness :
    (∀ loc ∈ [loc1], loc.Length ≠ 0 → recordDecodable (extractRecord goodZlibRecord loc) = true)
    ∧ ∃ chunks,
        (scanLocations (fun loc => levelRead inflate0 nbtPanic0 (extractRecord goodZlibRecord loc))
          [loc1]).1 = some chunks :=
  ⟨by decide, claimC1 inflate0 nbtPanic0 goodZlibRecord [loc1] (by decide)⟩

/-- C2 counterexample: at voxel `(0, 0, 1)` the projection returns
`(2, 1)`, not the claimed `(2*(0+1), -(0+1) - 2*0) = (2, -1)`. -/
theorem claimC2_cex : ProjectIsometric 0 0 1 ≠ (2 * (0 + 1), -(0 + 1) - 2 * 0) := by decide

/-- C2 (amended): for every integer voxel coordinate triple the isometric
projection returns `pixelX = 2*(x+z)` and `pixelY = -x - 2*y + z` (the
`z` term enters `pixelY` positively, unlike the claimed `-(x+z) - 2*y`). -/
theorem claimC2 : ∀ x y z : Int, ProjectIsometric x y z = (2 * (x + z), -x - 2 * y + z) := by
  intro x y z
  unfold ProjectIsometric
  simp only [Prod.mk.injEq]
  constructor <;> ring

/-- C3: the spatial comparator orders `a` strictly before `b` iff
`za < zb`, or `za = zb` and `xa > xb`; and the comparators used for chunks
and for regions are the same ordering as the `Positioner` one. -/
theorem claimC3 :
    (∀ a b : Int × Int, posLess a b = true ↔ (a.2 < b.2 ∨ (a.2 = b.2 ∧ a.1 > b.1)))
    ∧ (∀ u v : Level, chunkLess u v = posLess (u.X, u.Z) (v.X, v.Z))
    ∧ (∀ u v : Region, regionLess u v = posLess (u.X, u.Z) (v.X, v.Z)) := by
  refine ⟨?_, fun u v => rfl, fun u v => rfl⟩
  intro a b
  unfold posLess
  split
  · rename_i h
    simp only [decide_eq_true_eq]
    constructor
    · intro hlt
      exact Or.inr ⟨h, hlt⟩
    · rintro (hz | ⟨_, hx⟩)
      · omega
      · exact hx
  · rename_i h
    simp only [decide_eq_true_eq]
    constructor
    · intro hlt
      exact Or.inl hlt
    · rintro (hz | ⟨heq, _⟩)
      · exact hz
      · exact absurd heq h

/-- C4 counterexample: sorting the handcrafted set
`[(0,0), (1,0), (0,1), (-1,1)]` with the spatial comparator does not
produce the claimed `(0,0), (1,0), (-1,1), (0,1)` (that sequence has the
tied rows in ascending X, but the comparator breaks ties by descending X). -/
theorem claimC4_cex :
    GoSort.goSort posLess samplePositions ≠ [(0, 0), (1, 0), (-1, 1), (0, 1)] := by decide

/-- C4 (amended): the handcrafted set sorts to
`(1,0), (0,0), (0,1), (-1,1)` - ascending Z, and descending X within each
Z row. -/
theorem claimC4 :
    GoSort.goSort posLess samplePositions = [(1, 0), (0, 0), (0, 1), (-1, 1)] := by decide

/-- C5: every chunk of an emitted (sorted) batch has terrain-populated
byte 1; chunks decoded with any other value - including the zero left by a
parse that never set the field - are filtered out before the batch is
built. -/
theorem claimC5 : ∀ (decode : Location → ReadOutcome) (locs : List Location)
    (chunks : List Level),
    (scanLocations decode locs).1 = some chunks →
    ∀ c ∈ GoSort.goSort chunkLess chunks, c.TerrainPopulated = 1 := by
  intro decode locs chunks h c hc
  exact scan_populated h (GoSort.mem_goSort hc)

/-- C5 witness: a scan over a table with a populated and an unpopulated
chunk emits exactly the populated one. -/
theorem claimC5_witness : lvlPop.TerrainPopulated = 1 :=
  claimC5 dec1 locs1 [lvlPop] (by decide) lvlPop (by decide)

/-- C6 counterexample: a record carrying the unsupported compression tag 1
(gzip) whose payload happens to start with a valid zlib header decodes
successfully - no unsupported-format failure is produced for the tag. -/
theorem claimC6_cex :
    gzipTagRecord.get? 4 = some 1
    ∧ levelRead inflate0 nbtOk0 gzipTagRecord = ReadOutcome.ok lvlPop := by decide

/-- C6 (amended): the decoder reads the 1-byte compression tag but never
inspects it - the decode outcome is identical for every value of the tag
byte, so an unsupported scheme is silently ignored rather than rejected
(it can only surface later as a zlib header failure of the payload). -/
theorem claimC6 : ∀ (inflate : List Nat → List Nat) (nbtR : List Nat → NbtOutcome)
    (b0 b1 b2 b3 t t' : Nat) (rest : List Nat),
    levelRead inflate nbtR (b0 :: b1 :: b2 :: b3 :: t :: rest)
      = levelRead inflate nbtR (b0 :: b1 :: b2 :: b3 :: t' :: rest) := by
  intro inflate nbtR b0 b1 b2 b3 t t' rest
  rfl

/-- C7: an entry with sector length 0 never reaches the record extractor
and chunk decoder, and when no fatal error interrupts the scan the decoded
entries are exactly the nonzero-length ones, in table order. -/
theorem claimC7 : ∀ (decode : Location → ReadOutcome) (locs : List Location),
    (∀ loc ∈ (scanLocations decode locs).2, loc.Length ≠ 0)
    ∧ (((scanLocations decode locs).1).isSome = true →
        (scanLocations decode locs).2 = locs.filter (fun l => decide (l.Length ≠ 0))) :=
  fun _ _ => ⟨fun _ h => scan_trace_nonzero h, fun h => scan_trace_filter h⟩

/-- C7 witness: on a table with an empty and a nonempty entry, only the
nonempty entry is decoded. -/
theorem claimC7_witness :
    loc12.Length ≠ 0
    ∧ (scanLocations dec0 locs0).2 = locs0.filter (fun l => decide (l.Length ≠ 0)) :=
  ⟨(claimC7 dec0 locs0).1 loc12 (by decide), (claimC7 dec0 locs0).2 (by decide)⟩

/-- C8: on the fully opaque fast path, `DrawBlock` anchored at `(x, y)`
writes only inside the tile `[x-2, x+2) x [y, y+3)`; when the tile lies
inside the image, the full-cube style writes exactly the 12 pixels (top
row `y`, left at columns `x-2, x-1` of rows `y+1, y+2`, right at columns
`x, x+1` of those rows) and the non-full style exactly 8 pixels, all in
rows `y+1` and `y+2`. -/
theorem claimC8 : ∀ (R : Rect) (x y : Int) (c : BlockColor),
    (∀ pc ∈ drawBlockOpaqueWrites R x y c, inRect (tileRect x y) pc.1 = true)
    ∧ (tileInside R x y = true →
        (c.Full = true → drawBlockOpaqueWrites R x y c =
          [((x, y), c.Top), ((x + 1, y), c.Top), ((x - 2, y), c.Top), ((x - 1, y), c.Top),
           ((x - 2, y + 1), c.Left), ((x - 1, y + 1), c.Left), ((x - 1, y + 2), c.Left),
           ((x - 2, y + 2), c.Left),
           ((x, y + 1), c.Right), ((x, y + 2), c.Right), ((x + 1, y + 1), c.Right),
           ((x + 1, y + 2), c.Right)])
        ∧ (c.Full = false →
            drawBlockOpaqueWrites R x y c =
              [((x, y + 1), c.Top), ((x + 1, y + 1), c.Top), ((x - 2, y + 1), c.Top),
               ((x - 1, y + 1), c.Top),
               ((x - 2, y + 2), c.Left), ((x - 1, y + 2), c.Left),
               ((x, y + 2), c.Right), ((x + 1, y + 2), c.Right)]
            ∧ ∀ pc ∈ drawBlockOpaqueWrites R x y c, pc.1.2 = y + 1 ∨ pc.1.2 = y + 2)) := by
  intro R x y c
  constructor
  · intro pc hpc
    exact (inRect_inter.mp (List.mem_filter.mp hpc).2).2
  · intro hins
    constructor
    · intro hfull
      have hall : ∀ a ∈ spritePixels x y c,
          (fun pc => inRect (intersectR R (tileRect x y)) pc.1) a = true := by
        intro a ha
        simp only [spritePixels, hfull, if_true, List.mem_cons, List.not_mem_nil, or_false] at ha
        rcases ha with rfl|rfl|rfl|rfl|rfl|rfl|rfl|rfl|rfl|rfl|rfl|rfl <;>
          exact inTile_sub hins (by simp [inRect, tileRect] <;> omega)
      unfold drawBlockOpaqueWrites
      rw [List.filter_eq_self.mpr hall]
      simp [spritePixels, hfull]
    · intro hflat
      have hall : ∀ a ∈ spritePixels x y c,
          (fun pc => inRect (intersectR R (tileRect x y)) pc.1) a = true := by
        intro a ha
        simp only [spritePixels, hflat, if_false, Bool.false_eq_true, List.mem_cons,
          List.not_mem_nil, or_false] at ha
        rcases ha with rfl|rfl|rfl|rfl|rfl|rfl|rfl|rfl <;>
          exact inTile_sub hins (by simp [inRect, tileRect] <;> omega)
      constructor
      · unfold drawBlockOpaqueWrites
        rw [List.filter_eq_self.mpr hall]
        simp [spritePixels, hflat]
      · intro pc hpc
        have h := (List.mem_filter.mp hpc).1
        simp only [spritePixels, hflat, if_false, Bool.false_eq_true, List.mem_cons,
          List.not_mem_nil, or_false] at h
        rcases h with rfl|rfl|rfl|rfl|rfl|rfl|rfl|rfl <;> simp

/-- C8 witness: the tile at anchor `(10, 20)` inside a 100x100 image is
written as the exact 12-pixel full-cube sprite. -/
theorem claimC8_witness :
    tileInside rect8 10 20 = true
    ∧ drawBlockOpaqueWrites rect8 10 20 col8 =
      [((10, 20), col8.Top), ((10 + 1, 20), col8.Top), ((10 - 2, 20), col8.Top),
       ((10 - 1, 20), col8.Top),
       ((10 - 2, 20 + 1), col8.Left), ((10 - 1, 20 + 1), col8.Left), ((10 - 1, 20 + 2), col8.Left),
       ((10 - 2, 20 + 2), col8.Left),
       ((10, 20 + 1), col8.Right), ((10, 20 + 2), col8.Right), ((10 + 1, 20 + 1), col8.Right),
       ((10 + 1, 20 + 2), col8.Right)] :=
  ⟨by decide, ((claimC8 rect8 10 20 col8).2 (by decide)).1 (by decide)⟩

/-- C9 counterexample: the spatial sort is not stable.  In `sampleEnts`
the two entities at the equal position `(0, 0)` carry tags 1 (index 2) and
2 (index 6), in that encounter order; after sorting, the entity tagged 2
precedes the entity tagged 1. -/
theorem claimC9_cex :
    sampleEnts.get? 2 = some ((0, 0), 1)
    ∧ sampleEnts.get? 6 = some ((0, 0), 2)
    ∧ tagIdx sampleEnts 1 < tagIdx sampleEnts 2
    ∧ ¬ tagIdx (GoSort.goSort entLess sampleEnts) 1
        < tagIdx (GoSort.goSort entLess sampleEnts) 2 := by decide

/-- C9 (amended): the sort does order entities by the spatial comparator
(no adjacent pair is strictly out of order), but it is not stable:
`sort.Sort` may invert the encounter order of entities with identical
positions, as the nine-entity sample shows. -/
theorem claimC9 :
    nonDecreasingBy entLess (GoSort.goSort entLess sampleEnts) = true
    ∧ GoSort.goSort entLess sampleEnts =
      [((0, 0), 2), ((0, 0), 1), ((5, 1), 0), ((4, 1), 0), ((3, 1), 0), ((2, 1), 0),
       ((1, 1), 0), ((0, 1), 0), ((-1, 1), 0)]
    ∧ tagIdx sampleEnts 1 < tagIdx sampleEnts 2
    ∧ tagIdx (GoSort.goSort entLess sampleEnts) 2
        < tagIdx (GoSort.goSort entLess sampleEnts) 1 := by decide

/-- C10: `Section.Block` computes the flat index `(y*16+z)*16+x` with no
bounds check; every coordinate triple supplied by `Level.Draw` lies in
`[0,16)` per axis, the index is then below 4096, so a block array of at
least 4096 entries is always accessed in bounds - and the length
precondition is required, since a shorter array is out of bounds already
at the draw coordinate `(15, 15, 15)`. -/
theorem claimC10 :
    (∀ x y z : Nat, x < 16 → y < 16 → z < 16 → blockIndex x y z < 4096)
    ∧ (∀ c ∈ drawCoords, c.1 < 16 ∧ c.2.1 < 16 ∧ c.2.2 < 16)
    ∧ (∀ s : Section, 4096 ≤ s.Blocks.length →
        ∀ c ∈ drawCoords, (s.Block c.1 c.2.1 c.2.2).isSome = true)
    ∧ (∀ s : Section, s.Blocks.length < 4096 → s.Block 15 15 15 = none) := by
  refine ⟨fun x y z hx hy hz => blockIndex_lt hx hy hz, fun c hc => drawCoords_bounds hc,
    ?_, ?_⟩
  · intro s hlen c hc
    rcases drawCoords_bounds hc with ⟨hx, hy, hz⟩
    have hidx := blockIndex_lt hx hy hz
    unfold Section.Block
    cases hget : s.Blocks.get? (blockIndex c.1 c.2.1 c.2.2) with
    | none =>
      have := List.get?_eq_none.mp hget
      omega
    | some v => rfl
  · intro s hlen
    unfold Section.Block
    apply List.get?_eq_none.mpr
    have h15 : blockIndex 15 15 15 = 4095 := rfl
    omega

/-- C10 witness: a concrete coordinate from the draw traversal is in
bounds on a 4096-entry section, and the length precondition fails on an
empty section. -/
theorem claimC10_witness :
    blockIndex 3 2 1 < 4096
    ∧ (sFull.Block 15 0 0).isSome = true
    ∧ sShort.Block 15 15 15 = none :=
  ⟨claimC10.1 3 2 1 (by decide) (by decide) (by decide),
   claimC10.2.2.1 sFull
     (by rw [show sFull.Blocks = List.replicate 4096 0 from rfl, List.length_replicate])
     (15, 0, 0) (by decide),
   claimC10.2.2.2 sShort (by simp [sShort])⟩
